import Mathlib

/-!
# ShopAlarm relay trigger scheduling engine — formal model

Shallow embedding of the relay trigger scheduling engine of the ShopAlarm
server (`server.js`, the WebSocket variant).  Times are milliseconds as `Int`
(JavaScript `Date.now()` values); the JavaScript `%` operator on integers is
truncated remainder, embedded as `Int.tmod`.  The four relays are indexed by
`Fin 4`, where index `i` stands for the JSON object key `"i+1"` (the fixed
relay id set `{1,2,3,4}` of the data model).
-/

namespace ShopAlarm

/-- Per-relay configuration: `{ onTimeMs, delayMs, pulseMs, enabled }`. -/
structure RelayConfig where
  onTimeMs : Int
  delayMs : Int
  pulseMs : Int
  enabled : Bool
  deriving DecidableEq, Repr

/-- Trigger source: `'order' | 'test'`. -/
inductive Source where
  | order
  | test
  deriving DecidableEq, Repr

/-- `alarmSettings.activeTrigger`: `{ source, timestamp, relayConfig }`,
where `relayConfig` is the deep copy of the relay configuration taken at
creation time. -/
structure ActiveTrigger where
  source : Source
  timestamp : Int
  relayConfig : Fin 4 → RelayConfig

/-- `alarmSettings.testRelay`: `{ id, onTimeMs, pulseMs, timestamp }`,
with `id = none` standing for JavaScript `null`. -/
structure TestRelay where
  id : Option (Fin 4)
  onTimeMs : Int
  pulseMs : Int
  timestamp : Int
  deriving DecidableEq, Repr

/-- The cleared test-relay record `{ id: null, onTimeMs: 0, pulseMs: 0, timestamp: 0 }`. -/
def TestRelay.cleared : TestRelay := ⟨none, 0, 0, 0⟩

/-- The mutable `alarmSettings` object (engine-relevant fields). -/
structure AlarmSettings where
  alarmEnabled : Bool
  relays : Fin 4 → RelayConfig
  activeTrigger : Option ActiveTrigger
  testRelay : TestRelay
  currentRelayStates : Fin 4 → Bool
  triggerActive : Bool

/-- The `intervalId` timer resource: `id` is whether `intervalId` is non-null,
`live` counts the interval timers currently armed (a `setInterval` that has
not been `clearInterval`-ed). -/
structure TimerSys where
  live : Nat
  id : Bool
  deriving DecidableEq, Repr

/-- Whole in-memory system state: settings plus the module-level `intervalId`. -/
structure SystemState where
  settings : AlarmSettings
  timer : TimerSys

/-! ## `calculateAndBroadcastRelayStates` — main trigger block (lines 61–112) -/

/-- Per-relay state inside the main-trigger loop: disabled relays are skipped
(state `false`); otherwise the relay is on inside its window
`[delayMs, delayMs+onTimeMs)`, solid when `pulseMs = 0`, and in pulse mode on
iff `timeInWindow % (pulseMs*2) < pulseMs` (JavaScript `%`, i.e. `Int.tmod`). -/
def relayMainState (now ts : Int) (cfg : RelayConfig) : Bool :=
  if cfg.enabled then
    let elapsed := now - ts
    if cfg.delayMs ≤ elapsed ∧ elapsed < cfg.delayMs + cfg.onTimeMs then
      if 0 < cfg.pulseMs then
        decide (Int.tmod (elapsed - cfg.delayMs) (cfg.pulseMs * 2) < cfg.pulseMs)
      else true
    else false
  else false

/-- A relay of the snapshot is finished: disabled, or
`now >= timestamp + delayMs + onTimeMs`. -/
def relayFinished (now ts : Int) (cfg : RelayConfig) : Bool :=
  !cfg.enabled || decide (ts + cfg.delayMs + cfg.onTimeMs ≤ now)

/-- Result of the main-trigger block: the per-relay states it wrote into
`updatedRelayStates`, the value of `newTriggerActive` after the block, and
the (possibly cleared) `activeTrigger`. -/
structure MainOut where
  states : Fin 4 → Bool
  triggerActive : Bool
  trigger : Option ActiveTrigger

/-- Lines 61–112: the block guarded by
`alarmSettings.alarmEnabled && alarmSettings.activeTrigger`.  When entered it
sets `newTriggerActive = true`, computes each relay's state, and if every
(enabled) relay of the snapshot is finished it forces all states off, resets
`newTriggerActive`, and clears the trigger. -/
def mainComputation (alarmEnabled : Bool) (tr : Option ActiveTrigger) (now : Int) :
    MainOut :=
  match tr with
  | none => ⟨fun _ => false, false, none⟩
  | some trig =>
    if alarmEnabled then
      if ∀ i : Fin 4, relayFinished now trig.timestamp (trig.relayConfig i) = true then
        ⟨fun _ => false, false, none⟩
      else
        ⟨fun i => relayMainState now trig.timestamp (trig.relayConfig i), true, some trig⟩
    else
      ⟨fun _ => false, false, some trig⟩

/-! ## `calculateAndBroadcastRelayStates` — test relay block (lines 114–144) -/

/-- Result of the test-relay block: updated states and `newTriggerActive`,
the (possibly cleared) `testRelay`, and whether `saveSettings()` ran in the
finished branch. -/
structure TestOut where
  states : Fin 4 → Bool
  triggerActive : Bool
  testRelay : TestRelay
  savedTestFinish : Bool

/-- Lines 114–144: the block guarded by
`alarmSettings.testRelay.id !== null && alarmSettings.testRelay.onTimeMs > 0`.
While `elapsedTest < onTimeMs` it overwrites the target relay's state (pulse
or solid) and forces `newTriggerActive = true`; otherwise it clears
`testRelay`, forces the target relay off when no main trigger remains, and
persists. -/
def testComputation (states : Fin 4 → Bool) (triggerActive : Bool)
    (trigAfterMain : Option ActiveTrigger) (t : TestRelay) (now : Int) : TestOut :=
  match t.id with
  | none => ⟨states, triggerActive, t, false⟩
  | some tid =>
    if 0 < t.onTimeMs then
      let elapsedTest := now - t.timestamp
      if elapsedTest < t.onTimeMs then
        let st :=
          if 0 < t.pulseMs then
            decide (Int.tmod elapsedTest (t.pulseMs * 2) < t.pulseMs)
          else true
        ⟨Function.update states tid st, true, t, false⟩
      else
        let states' :=
          match trigAfterMain with
          | none => Function.update states tid false
          | some _ => states
        ⟨states', triggerActive, TestRelay.cleared, true⟩
    else ⟨states, triggerActive, t, false⟩

/-! ## `calculateAndBroadcastRelayStates` — broadcast gate and interval (lines 147–170) -/

/-- Lines 161–170: stop the interval when no trigger and no test remain,
start it when work exists and no interval is running. -/
def manageInterval (work : Bool) (tm : TimerSys) : TimerSys :=
  if !work && tm.id then ⟨tm.live - 1, false⟩
  else if work && !tm.id then ⟨tm.live + 1, true⟩
  else tm

/-- Full result of one `calculateAndBroadcastRelayStates()` call. -/
structure EvalOut where
  settings : AlarmSettings
  timer : TimerSys
  broadcasted : Bool
  savedTestFinish : Bool
  savedIdle : Bool

/-- The main-trigger block applied to the settings object. -/
def evalM (a : AlarmSettings) (now : Int) : MainOut :=
  mainComputation a.alarmEnabled a.activeTrigger now

/-- The test-relay block applied after the main block. -/
def evalT (a : AlarmSettings) (now : Int) : TestOut :=
  testComputation (evalM a now).states (evalM a now).triggerActive
    (evalM a now).trigger a.testRelay now

/-- The whole of `calculateAndBroadcastRelayStates()` (lines 55–171) as a
pure step on the system state at instant `now`: main-trigger block, test
block, the change-detecting broadcast gate
(`relayStatesChanged || triggerActiveChanged || (testRelay.id !== null && testRelay.onTimeMs > 0)`,
reading the post-block `testRelay`), the idle-save inside the gate, and
interval management. -/
def calculateAndBroadcastRelayStates (st : SystemState) (now : Int) : EvalOut :=
  let a := st.settings
  let m := evalM a now
  let t := evalT a now
  let relayStatesChanged := t.states ≠ a.currentRelayStates
  let triggerActiveChanged := t.triggerActive ≠ a.triggerActive
  let testPending := t.testRelay.id ≠ none ∧ 0 < t.testRelay.onTimeMs
  let doBroadcast := relayStatesChanged ∨ triggerActiveChanged ∨ testPending
  let work := m.trigger.isSome || t.testRelay.id.isSome
  if doBroadcast then
    let a' : AlarmSettings :=
      { a with
        activeTrigger := m.trigger
        testRelay := t.testRelay
        currentRelayStates := t.states
        triggerActive := t.triggerActive }
    let savedIdle := m.trigger.isNone && !t.triggerActive && t.testRelay.id.isNone
    ⟨a', manageInterval work st.timer, true, t.savedTestFinish, savedIdle⟩
  else
    let a' : AlarmSettings := { a with activeTrigger := m.trigger, testRelay := t.testRelay }
    ⟨a', manageInterval work st.timer, false, t.savedTestFinish, false⟩

/-- The post-call system state of one evaluation. -/
def EvalOut.state (o : EvalOut) : SystemState := ⟨o.settings, o.timer⟩

/-! ## Command handlers -/

/-- `POST /webhook/order` body (lines 338–353): when `alarmEnabled`, install a
new `activeTrigger` with `source: 'order'`, `timestamp: Date.now()` and a deep
copy of the current relay configuration, then evaluate immediately.  Returns
the new state and whether a trigger was installed. -/
def fireTrigger (st : SystemState) (now : Int) : SystemState × Bool :=
  if st.settings.alarmEnabled then
    let st' : SystemState :=
      { st with settings :=
        { st.settings with activeTrigger := some ⟨Source.order, now, st.settings.relays⟩ } }
    ((calculateAndBroadcastRelayStates st' now).state, true)
  else (st, false)

/-- Errors a command handler can answer with (HTTP 400 bodies). -/
inductive CmdError where
  | invalidRelayId
  | relayDisabled
  | invalidAlarmEnabled
  | invalidRelaysShape
  | invalidOnTimeMs (id : String)
  | invalidDelayMs (id : String)
  | invalidPulseMs (id : String)
  | invalidEnabled (id : String)
  deriving DecidableEq, Repr

/-- `POST /api/dashboard/commands/test-relay/:id` (lines 408–433): reject an
id outside `{1,2,3,4}` or a disabled relay; otherwise install
`testRelay = { id, onTimeMs: 500, pulseMs: config.pulseMs, timestamp: now }`
and evaluate immediately. -/
def fireTest (st : SystemState) (relayId : Nat) (now : Int) :
    SystemState × Option CmdError :=
  if h : 1 ≤ relayId ∧ relayId ≤ 4 then
    let tid : Fin 4 := ⟨relayId - 1, by omega⟩
    let cfg := st.settings.relays tid
    if cfg.enabled then
      let st' : SystemState :=
        { st with settings :=
          { st.settings with testRelay := ⟨some tid, 500, cfg.pulseMs, now⟩ } }
      ((calculateAndBroadcastRelayStates st' now).state, none)
    else (st, some CmdError.relayDisabled)
  else (st, some CmdError.invalidRelayId)

/-! ## `POST /api/dashboard/settings` (lines 367–405)

The request body is dynamically typed JSON, so the handler's validation is
embedded over a JSON-like value type and a relay map with arbitrary string
keys: the code checks `typeof alarmEnabled === 'boolean'`, that `relays` is an
object with exactly four keys, and the per-relay type/bounds checks — it never
compares the keys themselves against `{'1','2','3','4'}`. -/

/-- A dynamically typed JSON value as far as the validation observes it. -/
inductive JVal where
  | jbool (b : Bool)
  | jnum (n : Int)
  | jstr (s : String)
  | jnull
  deriving DecidableEq, Repr

/-- One relay entry of the request body. -/
structure RelayReq where
  onTimeMs : JVal
  delayMs : JVal
  pulseMs : JVal
  enabled : JVal
  deriving DecidableEq, Repr

/-- The request body `{ alarmEnabled, relays }`; `relays` is a JSON object,
i.e. a key-ordered association list with distinct string keys. -/
structure SettingsReq where
  alarmEnabled : JVal
  relays : List (String × RelayReq)
  deriving DecidableEq, Repr

/-- `typeof v === 'boolean'`. -/
def JVal.isBool : JVal → Bool
  | jbool _ => true
  | _ => false

/-- `typeof v === 'number' && lo <= v && v <= hi`. -/
def JVal.isNumIn (j : JVal) (lo hi : Int) : Bool :=
  match j with
  | jnum v => decide (lo ≤ v ∧ v ≤ hi)
  | _ => false

/-- The value of a JSON boolean (only applied to validated fields). -/
def JVal.asBool : JVal → Bool
  | jbool b => b
  | _ => false

/-- The value of a JSON number (only applied to validated fields). -/
def JVal.asNum : JVal → Int
  | jnum n => n
  | _ => 0

/-- Per-relay validation, in the handler's order of checks:
`onTimeMs` a number in `[100, 600000]`, `delayMs` a number in `[0, 600000]`,
`pulseMs` a number in `[0, 5000]`, `enabled` a boolean. -/
def validateRelayReq (id : String) (r : RelayReq) : Option CmdError :=
  if !(r.onTimeMs.isNumIn 100 600000) then some (CmdError.invalidOnTimeMs id)
  else if !(r.delayMs.isNumIn 0 600000) then some (CmdError.invalidDelayMs id)
  else if !(r.pulseMs.isNumIn 0 5000) then some (CmdError.invalidPulseMs id)
  else if !(r.enabled.isBool) then some (CmdError.invalidEnabled id)
  else none

/-- The iterated per-relay loop `for (const id in relays) { ... }`:
first failing relay wins. -/
def validateRelayList : List (String × RelayReq) → Option CmdError
  | [] => none
  | (id, r) :: rest =>
    match validateRelayReq id r with
    | some e => some e
    | none => validateRelayList rest

/-- Lines 370–393, the whole validation of the settings request:
`alarmEnabled` boolean, `relays` an object with exactly 4 keys, every relay
entry within bounds.  Returns `none` when the request is accepted. -/
def validateSettingsReq (req : SettingsReq) : Option CmdError :=
  if !req.alarmEnabled.isBool then some CmdError.invalidAlarmEnabled
  else if req.relays.length ≠ 4 then some CmdError.invalidRelaysShape
  else validateRelayList req.relays

/-- The JSON object key of relay `i : Fin 4`: `"1"`, `"2"`, `"3"`, `"4"`. -/
def keyOf (i : Fin 4) : String := toString (i.val + 1)

/-- Lookup of relay `i`'s entry in the request's relay object. -/
def reqRelayAt (req : SettingsReq) (i : Fin 4) : Option RelayReq :=
  (req.relays.find? (fun p => p.1 = keyOf i)).map Prod.snd

/-- The typed configuration a validated relay entry denotes. -/
def RelayReq.toConfig (r : RelayReq) : RelayConfig :=
  ⟨r.onTimeMs.asNum, r.delayMs.asNum, r.pulseMs.asNum, r.enabled.asBool⟩

/-- Lines 367–405 for a request whose relay object has the canonical key set
`{"1","2","3","4"}`: on a validation error the state is returned untouched;
on acceptance `alarmEnabled` and the live relay configuration are replaced
and one evaluation is forced.  (An accepted request with non-canonical keys
replaces the relay object with a map outside the fixed-id state space of this
model; `validateSettingsReq` alone decides its acceptance.) -/
def updateConfig (st : SystemState) (req : SettingsReq) (now : Int) :
    SystemState × Option CmdError :=
  match validateSettingsReq req with
  | some e => (st, some e)
  | none =>
    match reqRelayAt req 0, reqRelayAt req 1, reqRelayAt req 2, reqRelayAt req 3 with
    | some r1, some r2, some r3, some r4 =>
      let relays' : Fin 4 → RelayConfig := fun i =>
        match i with
        | 0 => r1.toConfig
        | 1 => r2.toConfig
        | 2 => r3.toConfig
        | 3 => r4.toConfig
      let st' : SystemState :=
        { st with settings :=
          { st.settings with
            alarmEnabled := req.alarmEnabled.asBool
            relays := relays' } }
      ((calculateAndBroadcastRelayStates st' now).state, none)
    | _, _, _, _ => (st, none)

/-- A test override is in flight at `now`: present, positive duration, and
`now - timestamp < onTimeMs`. -/
def TestRelay.inFlight (t : TestRelay) (now : Int) : Prop :=
  t.id ≠ none ∧ 0 < t.onTimeMs ∧ now - t.timestamp < t.onTimeMs

instance (t : TestRelay) (now : Int) : Decidable (t.inFlight now) := by
  unfold TestRelay.inFlight
  infer_instance

/-! ## Concrete sample states (used by witnesses and counterexamples) -/

/-- A relay configuration within the validated bounds: solid 5 s, no delay. -/
def exConfig : RelayConfig := ⟨5000, 0, 0, true⟩

/-- A pulsing relay configuration: 2 s window after 1 s delay, 200 ms pulse. -/
def exConfigPulse : RelayConfig := ⟨2000, 1000, 200, true⟩

/-- All four relays with the solid configuration. -/
def exRelays : Fin 4 → RelayConfig := fun _ => exConfig

/-- A trigger snapshot taken at instant 0 over `exRelays`. -/
def exTrig : ActiveTrigger := ⟨Source.order, 0, exRelays⟩

/-- An idle system: alarm armed, no trigger, no override, all states off. -/
def exIdle : SystemState :=
  ⟨⟨true, exRelays, none, TestRelay.cleared, fun _ => false, false⟩, ⟨0, false⟩⟩

/-- A running system: `exTrig` in flight, states as first broadcast. -/
def exRunning : SystemState :=
  ⟨⟨true, exRelays, some exTrig, TestRelay.cleared, fun _ => true, true⟩, ⟨1, true⟩⟩

/-- A system whose trigger is in flight but whose alarm was disabled
afterwards (reachable via `UpdateConfig` while the trigger runs). -/
def exAlarmOff : SystemState :=
  ⟨⟨false, exRelays, some exTrig, TestRelay.cleared, fun _ => false, false⟩, ⟨1, true⟩⟩

/-- A system with a test override on relay 3 (index 2) started at instant 0
and no main trigger. -/
def exTesting : SystemState :=
  ⟨⟨true, exRelays, none, ⟨some 2, 500, 0, 0⟩, fun _ => false, false⟩, ⟨1, true⟩⟩

/-- An idle system with the alarm disabled. -/
def exAlarmOffIdle : SystemState :=
  ⟨⟨false, exRelays, none, TestRelay.cleared, fun _ => false, false⟩, ⟨0, false⟩⟩

/-! ## Characterisation lemmas for `calculateAndBroadcastRelayStates` -/

/-- Projection: the packaged post-state keeps the settings. -/
theorem EvalOut.state_settings (o : EvalOut) : o.state.settings = o.settings := rfl

/-- Projection: the packaged post-state keeps the timer. -/
theorem EvalOut.state_timer (o : EvalOut) : o.state.timer = o.timer := rfl

/-- The evaluation never changes `alarmEnabled` or the live relay
configuration. -/
theorem evalStep_config_frame (st : SystemState) (now : Int) :
    (calculateAndBroadcastRelayStates st now).settings.alarmEnabled = st.settings.alarmEnabled ∧
    (calculateAndBroadcastRelayStates st now).settings.relays = st.settings.relays := by
  unfold calculateAndBroadcastRelayStates
  dsimp only
  split <;> exact ⟨rfl, rfl⟩

/-- The post-evaluation `activeTrigger` is the main block's output. -/
theorem evalStep_trigger (st : SystemState) (now : Int) :
    (calculateAndBroadcastRelayStates st now).settings.activeTrigger = (evalM st.settings now).trigger := by
  unfold calculateAndBroadcastRelayStates
  dsimp only
  split <;> rfl

/-- The post-evaluation `testRelay` is the test block's output. -/
theorem evalStep_testRelay (st : SystemState) (now : Int) :
    (calculateAndBroadcastRelayStates st now).settings.testRelay = (evalT st.settings now).testRelay := by
  unfold calculateAndBroadcastRelayStates
  dsimp only
  split <;> rfl

/-- After an evaluation, `currentRelayStates` holds the states the blocks
computed — either the gate stored them, or they were already equal to the
stored snapshot. -/
theorem evalStep_states (st : SystemState) (now : Int) :
    (calculateAndBroadcastRelayStates st now).settings.currentRelayStates = (evalT st.settings now).states := by
  unfold calculateAndBroadcastRelayStates
  dsimp only
  split
  · rfl
  · next h =>
    push_neg at h
    exact h.1.symm

/-- After an evaluation, `triggerActive` holds the computed value. -/
theorem evalStep_triggerActive (st : SystemState) (now : Int) :
    (calculateAndBroadcastRelayStates st now).settings.triggerActive = (evalT st.settings now).triggerActive := by
  unfold calculateAndBroadcastRelayStates
  dsimp only
  split
  · rfl
  · next h =>
    push_neg at h
    exact h.2.1.symm

/-- The post-evaluation timer is the interval-management step applied for
the remaining work. -/
theorem evalStep_timer (st : SystemState) (now : Int) :
    (calculateAndBroadcastRelayStates st now).timer =
      manageInterval ((evalM st.settings now).trigger.isSome
        || (evalT st.settings now).testRelay.id.isSome) st.timer := by
  unfold calculateAndBroadcastRelayStates
  dsimp only
  split <;> rfl

/-- The broadcast gate fires exactly on a changed `(RelayState, triggerActive)`
pair or a still-pending test override. -/
theorem evalStep_broadcasted (st : SystemState) (now : Int) :
    (calculateAndBroadcastRelayStates st now).broadcasted = true ↔
      ((evalT st.settings now).states ≠ st.settings.currentRelayStates ∨
       (evalT st.settings now).triggerActive ≠ st.settings.triggerActive ∨
       ((evalT st.settings now).testRelay.id ≠ none ∧
         0 < (evalT st.settings now).testRelay.onTimeMs)) := by
  unfold calculateAndBroadcastRelayStates
  dsimp only
  split
  · next h => simpa using h
  · next h => simpa using h

/-! ## Per-relay main-trigger computation -/

/-- Unfolding equation: main block with `alarmEnabled` and a trigger. -/
theorem mainComputation_true_some (trig : ActiveTrigger) (now : Int) :
    mainComputation true (some trig) now =
      if ∀ i : Fin 4, relayFinished now trig.timestamp (trig.relayConfig i) = true
      then ⟨fun _ => false, false, none⟩
      else ⟨fun i => relayMainState now trig.timestamp (trig.relayConfig i),
            true, some trig⟩ := rfl

/-- Unfolding equation: main block skipped when `alarmEnabled` is false. -/
theorem mainComputation_false_some (trig : ActiveTrigger) (now : Int) :
    mainComputation false (some trig) now = ⟨fun _ => false, false, some trig⟩ := rfl

/-- Unfolding equation: main block skipped when no trigger exists. -/
theorem mainComputation_none (alarmEnabled : Bool) (now : Int) :
    mainComputation alarmEnabled none now = ⟨fun _ => false, false, none⟩ := rfl

/-- The per-relay loop body, characterised: on iff enabled, inside the
window, and (in pulse mode) in the on half of the duty cycle.  Inside the
window the JavaScript-`%` operand `elapsed - delayMs` is nonnegative, so the
truncated remainder agrees with the mathematical one. -/
theorem relayMainState_eq_true_iff (now ts : Int) (cfg : RelayConfig) :
    relayMainState now ts cfg = true ↔
      (cfg.enabled = true ∧
       cfg.delayMs ≤ now - ts ∧
       now - ts < cfg.delayMs + cfg.onTimeMs ∧
       (0 < cfg.pulseMs →
         (now - ts - cfg.delayMs) % (2 * cfg.pulseMs) < cfg.pulseMs)) := by
  unfold relayMainState
  by_cases he : cfg.enabled
  · simp only [he, if_true, true_and]
    by_cases hw : cfg.delayMs ≤ now - ts ∧ now - ts < cfg.delayMs + cfg.onTimeMs
    · rw [if_pos hw]
      by_cases hp : 0 < cfg.pulseMs
      · rw [if_pos hp]
        have hmod : Int.tmod (now - ts - cfg.delayMs) (cfg.pulseMs * 2) =
            (now - ts - cfg.delayMs) % (2 * cfg.pulseMs) := by
          rw [mul_comm cfg.pulseMs 2]
          exact Int.tmod_eq_emod (by omega) (by omega)
        simp only [hmod, decide_eq_true_eq]
        constructor
        · intro h
          exact ⟨hw.1, hw.2, fun _ => h⟩
        · intro h
          exact h.2.2 hp
      · rw [if_neg hp]
        simp only [true_iff]
        exact ⟨hw.1, hw.2, fun h => absurd h hp⟩
    · rw [if_neg hw]
      simp only [Bool.false_eq_true, false_iff]
      intro h
      exact hw ⟨h.1, h.2.1⟩
  · simp [he]

/-- A finished relay of the snapshot cannot be inside its active window. -/
theorem relayFinished_not_window (now ts : Int) (cfg : RelayConfig)
    (hfin : relayFinished now ts cfg = true) (hen : cfg.enabled = true) :
    ¬ (now - ts < cfg.delayMs + cfg.onTimeMs) := by
  unfold relayFinished at hfin
  rw [hen] at hfin
  simp only [Bool.not_true, Bool.false_or, decide_eq_true_eq] at hfin
  omega

/-- C1.  Per-relay main-trigger computation: with an ActiveTrigger present and
`alarmEnabled` true, an enabled relay's computed state is true iff
`delayMs ≤ now - startedAt < delayMs + onTimeMs` and, when `pulseMs = p > 0`,
`((now - startedAt - delayMs) mod 2p) < p`; a disabled relay always computes
false; with no ActiveTrigger or `alarmEnabled` false, every relay's
main-trigger state is false. -/
theorem main_trigger_computation_correct :
    (∀ (now : Int) (trig : ActiveTrigger) (i : Fin 4),
      ((mainComputation true (some trig) now).states i = true ↔
        ((trig.relayConfig i).enabled = true ∧
         (trig.relayConfig i).delayMs ≤ now - trig.timestamp ∧
         now - trig.timestamp <
           (trig.relayConfig i).delayMs + (trig.relayConfig i).onTimeMs ∧
         (0 < (trig.relayConfig i).pulseMs →
           (now - trig.timestamp - (trig.relayConfig i).delayMs) %
             (2 * (trig.relayConfig i).pulseMs) < (trig.relayConfig i).pulseMs)))) ∧
    (∀ (now : Int) (trig : ActiveTrigger) (i : Fin 4),
      (trig.relayConfig i).enabled = false →
        (mainComputation true (some trig) now).states i = false) ∧
    (∀ (now : Int) (tr : Option ActiveTrigger) (i : Fin 4),
      (mainComputation false tr now).states i = false) ∧
    (∀ (now : Int) (i : Fin 4),
      (mainComputation true none now).states i = false) := by
  refine ⟨?_, ?_, ?_, ?_⟩
  · intro now trig i
    rw [mainComputation_true_some]
    by_cases hall : ∀ j : Fin 4,
        relayFinished now trig.timestamp (trig.relayConfig j) = true
    · rw [if_pos hall]
      simp only [Bool.false_eq_true, false_iff]
      intro h
      exact relayFinished_not_window now trig.timestamp (trig.relayConfig i)
        (hall i) h.1 h.2.2.1
    · rw [if_neg hall]
      exact relayMainState_eq_true_iff now trig.timestamp (trig.relayConfig i)
  · intro now trig i hdis
    rw [mainComputation_true_some]
    by_cases hall : ∀ j : Fin 4,
        relayFinished now trig.timestamp (trig.relayConfig j) = true
    · rw [if_pos hall]
    · rw [if_neg hall]
      unfold relayMainState
      dsimp only
      simp [hdis]
  · intro now tr i
    match tr with
    | none => rfl
    | some trig => rw [mainComputation_false_some]
  · intro now i
    rfl

/-! ## Idle evaluations -/

/-- When the main block ends without a trigger it ended in the all-off,
inactive shape. -/
theorem mainComputation_cleared (alarmEnabled : Bool)
    (tr : Option ActiveTrigger) (now : Int)
    (h : (mainComputation alarmEnabled tr now).trigger = none) :
    mainComputation alarmEnabled tr now = ⟨fun _ => false, false, none⟩ := by
  match tr, alarmEnabled with
  | none, _ => rw [mainComputation_none]
  | some trig, false =>
    rw [mainComputation_false_some] at h
    exact absurd h (by simp)
  | some trig, true =>
    rw [mainComputation_true_some] at h ⊢
    by_cases hall : ∀ j : Fin 4,
        relayFinished now trig.timestamp (trig.relayConfig j) = true
    · rw [if_pos hall]
    · rw [if_neg hall] at h
      exact absurd h (by simp)

/-- When the main block cleared or skipped the trigger, its states are all
off. -/
theorem mainComputation_trigger_none_states (alarmEnabled : Bool)
    (tr : Option ActiveTrigger) (now : Int)
    (h : (mainComputation alarmEnabled tr now).trigger = none) :
    (mainComputation alarmEnabled tr now).states = fun _ => false := by
  rw [mainComputation_cleared alarmEnabled tr now h]

/-- The main block either keeps the trigger it was given or clears it. -/
theorem mainComputation_trigger_cases (alarmEnabled : Bool)
    (tr : Option ActiveTrigger) (now : Int) :
    (mainComputation alarmEnabled tr now).trigger = none ∨
    (mainComputation alarmEnabled tr now).trigger = tr := by
  match tr, alarmEnabled with
  | none, _ => exact Or.inl rfl
  | some trig, false =>
    rw [mainComputation_false_some]
    exact Or.inr rfl
  | some trig, true =>
    rw [mainComputation_true_some]
    by_cases hall : ∀ j : Fin 4,
        relayFinished now trig.timestamp (trig.relayConfig j) = true
    · rw [if_pos hall]
      exact Or.inl rfl
    · rw [if_neg hall]
      exact Or.inr rfl

/-- C10.  Implicit idle-all-off invariant: an evaluation performed while no
ActiveTrigger exists and no TestOverride is in flight leaves every relay
state false and `triggerActive` false; contrapositively a relay state can be
true after an evaluation only if a trigger existed or an override was in
flight at that instant. -/
theorem idle_evaluation_all_off (st : SystemState) (now : Int)
    (htr : st.settings.activeTrigger = none)
    (hov : ¬ st.settings.testRelay.inFlight now) :
    (∀ i : Fin 4, (calculateAndBroadcastRelayStates st now).settings.currentRelayStates i = false) ∧
    (calculateAndBroadcastRelayStates st now).settings.triggerActive = false := by
  have hm : evalM st.settings now = ⟨fun _ => false, false, none⟩ := by
    unfold evalM
    rw [htr, mainComputation_none]
  have ht : ∀ i : Fin 4, (evalT st.settings now).states i = false ∧
      (evalT st.settings now).triggerActive = false := by
    intro i
    unfold evalT
    rw [hm]
    unfold testComputation
    dsimp only
    unfold TestRelay.inFlight at hov
    push_neg at hov
    match hid : st.settings.testRelay.id with
    | none => exact ⟨rfl, rfl⟩
    | some tid =>
      dsimp only
      by_cases hdur : 0 < st.settings.testRelay.onTimeMs
      · rw [if_pos hdur]
        have helapsed : ¬ (now - st.settings.testRelay.timestamp <
            st.settings.testRelay.onTimeMs) := by
          have := hov (by rw [hid]; simp) hdur
          omega
        rw [if_neg helapsed]
        dsimp only
        constructor
        · rcases eq_or_ne i tid with h | h
          · subst h
            simp [Function.update]
          · simp [Function.update, h]
        · rfl
      · rw [if_neg hdur]
        exact ⟨rfl, rfl⟩
  constructor
  · intro i
    rw [evalStep_states]
    exact (ht i).1
  · rw [evalStep_triggerActive]
    exact (ht 0).2

/-- Witness for C10 at the idle sample state. -/
theorem idle_evaluation_all_off_witness :
    exIdle.settings.activeTrigger = none ∧
    ¬ exIdle.settings.testRelay.inFlight 0 ∧
    ((∀ i : Fin 4, (calculateAndBroadcastRelayStates exIdle 0).settings.currentRelayStates i = false) ∧
      (calculateAndBroadcastRelayStates exIdle 0).settings.triggerActive = false) :=
  ⟨rfl, by decide, idle_evaluation_all_off exIdle 0 rfl (by decide)⟩

/-! ## Scheduler timer -/

/-- After interval management the timer is armed exactly when work exists. -/
theorem manageInterval_id (w : Bool) (tm : TimerSys) :
    (manageInterval w tm).id = w := by
  unfold manageInterval
  match w, hid : tm.id with
  | true, true => simp [hid]
  | true, false => simp [hid]
  | false, true => simp [hid]
  | false, false => simp [hid]

/-- Interval management keeps the one-timer resource accounting. -/
theorem manageInterval_live (w : Bool) (tm : TimerSys)
    (h : tm.live = if tm.id then 1 else 0) :
    (manageInterval w tm).live = if (manageInterval w tm).id then 1 else 0 := by
  unfold manageInterval
  match w, hid : tm.id with
  | true, true => simp [hid, h]
  | true, false => simp [hid, h]
  | false, true => simp [hid, h]
  | false, false => simp [hid, h]

/-- C8.  Scheduler timer invariant: provided the timer resource was
consistent before the evaluation (`live` timers = 1 if armed, 0 if idle),
after the evaluation the tick timer is armed iff an ActiveTrigger or a
TestOverride remains, the accounting still holds — so at most one timer ever
exists — and the interval-management step is a no-op when starting while
already running or stopping while already idle. -/
theorem scheduler_timer_invariant (st : SystemState) (now : Int)
    (hinv : st.timer.live = if st.timer.id then 1 else 0) :
    ((calculateAndBroadcastRelayStates st now).timer.id =
      ((calculateAndBroadcastRelayStates st now).settings.activeTrigger.isSome
        || (calculateAndBroadcastRelayStates st now).settings.testRelay.id.isSome)) ∧
    ((calculateAndBroadcastRelayStates st now).timer.live = if (calculateAndBroadcastRelayStates st now).timer.id then 1 else 0) ∧
    (calculateAndBroadcastRelayStates st now).timer.live ≤ 1 ∧
    (∀ (work : Bool) (tm : TimerSys),
      (work = true → tm.id = true → manageInterval work tm = tm) ∧
      (work = false → tm.id = false → manageInterval work tm = tm)) := by
  have hid := manageInterval_id ((evalM st.settings now).trigger.isSome
    || (evalT st.settings now).testRelay.id.isSome) st.timer
  have hlive := manageInterval_live ((evalM st.settings now).trigger.isSome
    || (evalT st.settings now).testRelay.id.isSome) st.timer hinv
  refine ⟨?_, ?_, ?_, ?_⟩
  · rw [evalStep_timer, evalStep_trigger, evalStep_testRelay, hid]
  · rw [evalStep_timer, hlive]
  · rw [evalStep_timer, hlive]
    split <;> omega
  · intro work tm
    constructor
    · intro hw htm
      unfold manageInterval
      simp [hw, htm]
    · intro hw htm
      unfold manageInterval
      simp [hw, htm]

/-- Witness for C8 at the idle sample state. -/
theorem scheduler_timer_invariant_witness :
    (exIdle.timer.live = if exIdle.timer.id then 1 else 0) ∧
    (((calculateAndBroadcastRelayStates exIdle 0).timer.id =
      ((calculateAndBroadcastRelayStates exIdle 0).settings.activeTrigger.isSome
        || (calculateAndBroadcastRelayStates exIdle 0).settings.testRelay.id.isSome)) ∧
    ((calculateAndBroadcastRelayStates exIdle 0).timer.live = if (calculateAndBroadcastRelayStates exIdle 0).timer.id then 1 else 0) ∧
    (calculateAndBroadcastRelayStates exIdle 0).timer.live ≤ 1 ∧
    (∀ (work : Bool) (tm : TimerSys),
      (work = true → tm.id = true → manageInterval work tm = tm) ∧
      (work = false → tm.id = false → manageInterval work tm = tm))) :=
  ⟨by decide, scheduler_timer_invariant exIdle 0 (by decide)⟩

/-! ## Test-override block unfolding -/

/-- No test override present: the block is skipped. -/
theorem testComputation_id_none (s : Fin 4 → Bool) (ta : Bool)
    (tr : Option ActiveTrigger) (t : TestRelay) (now : Int) (h : t.id = none) :
    testComputation s ta tr t now = ⟨s, ta, t, false⟩ := by
  unfold testComputation
  rw [h]

/-- Test override present with nonpositive duration: the block is skipped. -/
theorem testComputation_nodur (s : Fin 4 → Bool) (ta : Bool)
    (tr : Option ActiveTrigger) (t : TestRelay) (now : Int) (tid : Fin 4)
    (hid : t.id = some tid) (hdur : ¬ 0 < t.onTimeMs) :
    testComputation s ta tr t now = ⟨s, ta, t, false⟩ := by
  unfold testComputation
  rw [hid]
  dsimp only
  rw [if_neg hdur]

/-- Test override in flight: it overwrites its target relay's state and
forces `newTriggerActive`. -/
theorem testComputation_inflight (s : Fin 4 → Bool) (ta : Bool)
    (tr : Option ActiveTrigger) (t : TestRelay) (now : Int) (tid : Fin 4)
    (hid : t.id = some tid) (hdur : 0 < t.onTimeMs)
    (hfl : now - t.timestamp < t.onTimeMs) :
    testComputation s ta tr t now =
      ⟨Function.update s tid
        (if 0 < t.pulseMs then
          decide (Int.tmod (now - t.timestamp) (t.pulseMs * 2) < t.pulseMs)
        else true), true, t, false⟩ := by
  unfold testComputation
  rw [hid]
  dsimp only
  rw [if_pos hdur, if_pos hfl]

/-- Test override finished: it is cleared, the target forced off when no
main trigger remains, and the cleared state persisted. -/
theorem testComputation_finish (s : Fin 4 → Bool) (ta : Bool)
    (tr : Option ActiveTrigger) (t : TestRelay) (now : Int) (tid : Fin 4)
    (hid : t.id = some tid) (hdur : 0 < t.onTimeMs)
    (hfl : ¬ now - t.timestamp < t.onTimeMs) :
    testComputation s ta tr t now =
      ⟨(match tr with
        | none => Function.update s tid false
        | some _ => s), ta, TestRelay.cleared, true⟩ := by
  unfold testComputation
  rw [hid]
  dsimp only
  rw [if_pos hdur, if_neg hfl]

/-- The main block with the alarm disabled: skipped, all states off. -/
theorem mainComputation_false (tr : Option ActiveTrigger) (now : Int) :
    mainComputation false tr now = ⟨fun _ => false, false, tr⟩ := by
  match tr with
  | none => rfl
  | some trig => rw [mainComputation_false_some]

/-! ## Test-override lifecycle -/

/-- C6.  TestOverride termination: with an override of the fixed 500 ms
duration installed, an evaluation clears it exactly when 500 ms have elapsed
since its own start, whatever the ActiveTrigger is doing; at the clearing
evaluation the target relay's state equals the main-trigger computation's
value for it — in particular it is forced off whenever the main block is not
driving a trigger. -/
theorem test_override_termination (st : SystemState) (now : Int) (tid : Fin 4)
    (hid : st.settings.testRelay.id = some tid)
    (hdur : st.settings.testRelay.onTimeMs = 500) :
    ((calculateAndBroadcastRelayStates st now).settings.testRelay.id = none ↔
      500 ≤ now - st.settings.testRelay.timestamp) ∧
    (500 ≤ now - st.settings.testRelay.timestamp →
      (calculateAndBroadcastRelayStates st now).settings.currentRelayStates tid =
        (evalM st.settings now).states tid) ∧
    (500 ≤ now - st.settings.testRelay.timestamp →
      (evalM st.settings now).trigger = none →
      (calculateAndBroadcastRelayStates st now).settings.currentRelayStates tid = false) := by
  have hpos : 0 < st.settings.testRelay.onTimeMs := by omega
  by_cases hfl : now - st.settings.testRelay.timestamp < st.settings.testRelay.onTimeMs
  · have ht : evalT st.settings now =
        ⟨Function.update (evalM st.settings now).states tid
          (if 0 < st.settings.testRelay.pulseMs then
            decide (Int.tmod (now - st.settings.testRelay.timestamp)
              (st.settings.testRelay.pulseMs * 2) < st.settings.testRelay.pulseMs)
          else true), true, st.settings.testRelay, false⟩ := by
      unfold evalT
      exact testComputation_inflight _ _ _ _ _ _ hid hpos hfl
    refine ⟨?_, ?_, ?_⟩
    · rw [evalStep_testRelay, ht]
      simp only [hid]
      constructor
      · intro h
        exact absurd h (by simp)
      · intro h
        omega
    · intro h
      omega
    · intro h
      omega
  · have ht : evalT st.settings now =
        ⟨(match (evalM st.settings now).trigger with
          | none => Function.update (evalM st.settings now).states tid false
          | some _ => (evalM st.settings now).states), (evalM st.settings now).triggerActive,
          TestRelay.cleared, true⟩ := by
      unfold evalT
      exact testComputation_finish _ _ _ _ _ _ hid hpos hfl
    refine ⟨?_, ?_, ?_⟩
    · rw [evalStep_testRelay, ht]
      simp only [TestRelay.cleared]
      constructor
      · intro _
        omega
      · intro _
        trivial
    · intro _
      rw [evalStep_states, ht]
      dsimp only
      match htr : (evalM st.settings now).trigger with
      | some trig => rfl
      | none =>
        have hstates := mainComputation_trigger_none_states
          st.settings.alarmEnabled st.settings.activeTrigger now htr
        unfold evalM at *
        rw [hstates]
        simp [Function.update]
    · intro h htr
      rw [evalStep_states, ht]
      dsimp only
      rw [htr]
      simp [Function.update]

/-- Witness for C6: `exTesting`'s override, evaluated at instant 600. -/
theorem test_override_termination_witness :
    exTesting.settings.testRelay.id = some 2 ∧
    exTesting.settings.testRelay.onTimeMs = 500 ∧
    (((calculateAndBroadcastRelayStates exTesting 600).settings.testRelay.id = none ↔
      500 ≤ (600 : Int) - exTesting.settings.testRelay.timestamp) ∧
    (500 ≤ (600 : Int) - exTesting.settings.testRelay.timestamp →
      (calculateAndBroadcastRelayStates exTesting 600).settings.currentRelayStates 2 =
        (evalM exTesting.settings 600).states 2) ∧
    (500 ≤ (600 : Int) - exTesting.settings.testRelay.timestamp →
      (evalM exTesting.settings 600).trigger = none →
      (calculateAndBroadcastRelayStates exTesting 600).settings.currentRelayStates 2 = false)) :=
  ⟨rfl, rfl, test_override_termination exTesting 600 2 rfl rfl⟩

/-- C5.  TestOverride precedence: while an override (500 ms duration) is in
flight, the evaluation overwrites the target relay's state with the
override's own solid/pulse computation, leaves every other relay's state as
the main-trigger computation produced it, and forces `triggerActive` true. -/
theorem test_override_precedence (st : SystemState) (now : Int) (tid : Fin 4)
    (hid : st.settings.testRelay.id = some tid)
    (hdur : st.settings.testRelay.onTimeMs = 500)
    (hfl : now - st.settings.testRelay.timestamp < 500)
    (hnn : 0 ≤ now - st.settings.testRelay.timestamp) :
    ((calculateAndBroadcastRelayStates st now).settings.currentRelayStates tid =
      if 0 < st.settings.testRelay.pulseMs then
        decide ((now - st.settings.testRelay.timestamp) %
          (2 * st.settings.testRelay.pulseMs) < st.settings.testRelay.pulseMs)
      else true) ∧
    (∀ j : Fin 4, j ≠ tid →
      (calculateAndBroadcastRelayStates st now).settings.currentRelayStates j =
        (evalM st.settings now).states j) ∧
    (calculateAndBroadcastRelayStates st now).settings.triggerActive = true := by
  have hpos : 0 < st.settings.testRelay.onTimeMs := by omega
  have hfl' : now - st.settings.testRelay.timestamp < st.settings.testRelay.onTimeMs := by
    omega
  have ht : evalT st.settings now =
      ⟨Function.update (evalM st.settings now).states tid
        (if 0 < st.settings.testRelay.pulseMs then
          decide (Int.tmod (now - st.settings.testRelay.timestamp)
            (st.settings.testRelay.pulseMs * 2) < st.settings.testRelay.pulseMs)
        else true), true, st.settings.testRelay, false⟩ := by
    unfold evalT
    exact testComputation_inflight _ _ _ _ _ _ hid hpos hfl'
  refine ⟨?_, ?_, ?_⟩
  · rw [evalStep_states, ht]
    dsimp only
    rw [Function.update_same]
    by_cases hp : 0 < st.settings.testRelay.pulseMs
    · rw [if_pos hp, if_pos hp]
      rw [mul_comm (2 : Int) st.settings.testRelay.pulseMs] at *
      rw [Int.tmod_eq_emod hnn (by omega)]
    · rw [if_neg hp, if_neg hp]
  · intro j hj
    rw [evalStep_states, ht]
    dsimp only
    rw [Function.update_noteq hj]
  · rw [evalStep_triggerActive, ht]

/-- Witness for C5: `exTesting`'s override, evaluated at instant 100. -/
theorem test_override_precedence_witness :
    exTesting.settings.testRelay.id = some 2 ∧
    exTesting.settings.testRelay.onTimeMs = 500 ∧
    (100 : Int) - exTesting.settings.testRelay.timestamp < 500 ∧
    0 ≤ (100 : Int) - exTesting.settings.testRelay.timestamp ∧
    (((calculateAndBroadcastRelayStates exTesting 100).settings.currentRelayStates 2 =
      if 0 < exTesting.settings.testRelay.pulseMs then
        decide (((100 : Int) - exTesting.settings.testRelay.timestamp) %
          (2 * exTesting.settings.testRelay.pulseMs) <
          exTesting.settings.testRelay.pulseMs)
      else true) ∧
    (∀ j : Fin 4, j ≠ 2 →
      (calculateAndBroadcastRelayStates exTesting 100).settings.currentRelayStates j =
        (evalM exTesting.settings 100).states j) ∧
    (calculateAndBroadcastRelayStates exTesting 100).settings.triggerActive = true) :=
  ⟨rfl, rfl, by decide, by decide,
    test_override_precedence exTesting 100 2 rfl rfl (by decide) (by decide)⟩

/-- C9.  Implicit: `FireTest` is not gated by `alarmEnabled`.  With the alarm
disabled and the target relay enabled, the command succeeds, installs the
500 ms override with the relay's configured pulse, and the forced evaluation
turns the relay on (the override window has just opened) and forces
`triggerActive` true. -/
theorem fire_test_ignores_alarmEnabled (st : SystemState) (now : Int) (tid : Fin 4)
    (hoff : st.settings.alarmEnabled = false)
    (hen : (st.settings.relays tid).enabled = true) :
    (fireTest st (tid.val + 1) now).2 = none ∧
    (fireTest st (tid.val + 1) now).1.settings.testRelay =
      ⟨some tid, 500, (st.settings.relays tid).pulseMs, now⟩ ∧
    (fireTest st (tid.val + 1) now).1.settings.currentRelayStates tid = true ∧
    (fireTest st (tid.val + 1) now).1.settings.triggerActive = true := by
  unfold fireTest
  rw [dif_pos ⟨by omega, by omega⟩]
  simp only [Nat.add_sub_cancel, Fin.eta]
  rw [if_pos hen]
  have ht : evalT { st.settings with
      testRelay := ⟨some tid, 500, (st.settings.relays tid).pulseMs, now⟩ } now =
      ⟨Function.update (evalM { st.settings with
          testRelay := ⟨some tid, 500, (st.settings.relays tid).pulseMs, now⟩ } now).states
        tid
        (if 0 < (st.settings.relays tid).pulseMs then
          decide (Int.tmod (now - now)
            ((st.settings.relays tid).pulseMs * 2) < (st.settings.relays tid).pulseMs)
        else true), true, ⟨some tid, 500, (st.settings.relays tid).pulseMs, now⟩, false⟩ := by
    unfold evalT
    exact testComputation_inflight _ _ _ _ _ tid rfl (by show (0:Int) < 500; norm_num)
      (by show now - now < 500; omega)
  have hov : (if 0 < (st.settings.relays tid).pulseMs then
      decide (Int.tmod (now - now)
        ((st.settings.relays tid).pulseMs * 2) < (st.settings.relays tid).pulseMs)
    else true) = true := by
    by_cases hp : 0 < (st.settings.relays tid).pulseMs
    · rw [if_pos hp]
      simp only [decide_eq_true_eq, sub_self, Int.zero_tmod]
      exact hp
    · rw [if_neg hp]
  refine ⟨rfl, ?_, ?_, ?_⟩
  · show (calculateAndBroadcastRelayStates { st with settings := { st.settings with
        testRelay := ⟨some tid, 500, (st.settings.relays tid).pulseMs, now⟩ } }
        now).state.settings.testRelay = _
    rw [EvalOut.state_settings, evalStep_testRelay, ht]
  · show (calculateAndBroadcastRelayStates { st with settings := { st.settings with
        testRelay := ⟨some tid, 500, (st.settings.relays tid).pulseMs, now⟩ } }
        now).state.settings.currentRelayStates tid = true
    rw [EvalOut.state_settings, evalStep_states, ht]
    dsimp only
    rw [Function.update_same, hov]
  · show (calculateAndBroadcastRelayStates { st with settings := { st.settings with
        testRelay := ⟨some tid, 500, (st.settings.relays tid).pulseMs, now⟩ } }
        now).state.settings.triggerActive = true
    rw [EvalOut.state_settings, evalStep_triggerActive, ht]

/-- Witness for C9: testing relay 3 (index 2) from an alarm-disabled idle
state. -/
theorem fire_test_ignores_alarmEnabled_witness :
    exAlarmOffIdle.settings.alarmEnabled = false ∧
    (exAlarmOffIdle.settings.relays 2).enabled = true ∧
    ((fireTest exAlarmOffIdle 3 50).2 = none ∧
    (fireTest exAlarmOffIdle 3 50).1.settings.testRelay =
      ⟨some 2, 500, (exAlarmOffIdle.settings.relays 2).pulseMs, 50⟩ ∧
    (fireTest exAlarmOffIdle 3 50).1.settings.currentRelayStates 2 = true ∧
    (fireTest exAlarmOffIdle 3 50).1.settings.triggerActive = true) :=
  ⟨rfl, rfl, fire_test_ignores_alarmEnabled exAlarmOffIdle 50 2 rfl rfl⟩

/-! ## Snapshot immutability -/

/-- `UpdateConfig` either leaves the trigger exactly as it was or (through
the forced evaluation) completes and clears it. -/
theorem updateConfig_trigger_cases (st : SystemState) (req : SettingsReq) (now : Int) :
    (updateConfig st req now).1.settings.activeTrigger = none ∨
    (updateConfig st req now).1.settings.activeTrigger = st.settings.activeTrigger := by
  unfold updateConfig
  cases hv : validateSettingsReq req with
  | some e => exact Or.inr rfl
  | none =>
    rcases h0 : reqRelayAt req 0 with _ | r1 <;>
      rcases h1 : reqRelayAt req 1 with _ | r2 <;>
        rcases h2 : reqRelayAt req 2 with _ | r3 <;>
          rcases h3 : reqRelayAt req 3 with _ | r4
    all_goals try exact Or.inr rfl
    rw [EvalOut.state_settings, evalStep_trigger]
    unfold evalM
    exact mainComputation_trigger_cases _ _ _

/-- C7.  Snapshot immutability: `FireTrigger` installs a by-value snapshot of
the current relay configuration taken at call time (unless the forced
evaluation immediately completes it), and a subsequent `UpdateConfig` —
accepted or rejected — never alters an in-flight ActiveTrigger's snapshot:
afterwards the trigger is either gone or exactly the one captured before. -/
theorem snapshot_immutability (st : SystemState) (now editNow : Int)
    (trig : ActiveTrigger) (req : SettingsReq)
    (harm : st.settings.alarmEnabled = true)
    (htr : st.settings.activeTrigger = some trig) :
    ((fireTrigger st now).1.settings.activeTrigger = none ∨
     (fireTrigger st now).1.settings.activeTrigger =
       some ⟨Source.order, now, st.settings.relays⟩) ∧
    ((updateConfig st req editNow).1.settings.activeTrigger = none ∨
     (updateConfig st req editNow).1.settings.activeTrigger = some trig) := by
  constructor
  · unfold fireTrigger
    rw [if_pos harm]
    dsimp only
    rw [EvalOut.state_settings, evalStep_trigger]
    unfold evalM
    exact mainComputation_trigger_cases _ _ _
  · rcases updateConfig_trigger_cases st req editNow with h | h
    · exact Or.inl h
    · rw [h, htr]
      exact Or.inr rfl

/-- A well-formed settings request replacing every relay by the solid
configuration and disabling the alarm. -/
def exGoodRelayReq : RelayReq :=
  ⟨JVal.jnum 5000, JVal.jnum 0, JVal.jnum 0, JVal.jbool true⟩

/-- A canonical-keyed, within-bounds settings request. -/
def exGoodReq : SettingsReq :=
  ⟨JVal.jbool false,
   [("1", exGoodRelayReq), ("2", exGoodRelayReq),
    ("3", exGoodRelayReq), ("4", exGoodRelayReq)]⟩

/-- Witness for C7 at the running sample state. -/
theorem snapshot_immutability_witness :
    exRunning.settings.alarmEnabled = true ∧
    exRunning.settings.activeTrigger = some exTrig ∧
    (((fireTrigger exRunning 7).1.settings.activeTrigger = none ∨
      (fireTrigger exRunning 7).1.settings.activeTrigger =
        some ⟨Source.order, 7, exRunning.settings.relays⟩) ∧
    ((updateConfig exRunning exGoodReq 9).1.settings.activeTrigger = none ∨
     (updateConfig exRunning exGoodReq 9).1.settings.activeTrigger = some exTrig)) :=
  ⟨rfl, rfl, snapshot_immutability exRunning 7 9 exTrig exGoodReq rfl rfl⟩

/-! ## ActiveTrigger lifecycle -/

/-- A relay of a snapshot counts as finished exactly when it is disabled or
its delay-plus-on-time window has passed. -/
theorem relayFinished_iff (now ts : Int) (cfg : RelayConfig) :
    relayFinished now ts cfg = true ↔
      (cfg.enabled = false ∨ ts + cfg.delayMs + cfg.onTimeMs ≤ now) := by
  unfold relayFinished
  cases h : cfg.enabled <;> simp

/-- C2 (amended).  ActiveTrigger lifecycle: an evaluation clears an existing
trigger exactly when `alarmEnabled` is true and every enabled relay of its
snapshot has passed `startedAt + delayMs + onTimeMs` (disabled relays count
as finished immediately); while `alarmEnabled` is false the trigger is never
cleared.  At the clearing evaluation the main-trigger computation forces all
relay states off with `triggerActive` false, and — when no TestOverride is
present — the evaluation's stored states are all off with `triggerActive`
false. -/
theorem trigger_lifecycle (st : SystemState) (now : Int) (trig : ActiveTrigger)
    (htr : st.settings.activeTrigger = some trig) :
    ((calculateAndBroadcastRelayStates st now).settings.activeTrigger = none ↔
      (st.settings.alarmEnabled = true ∧
        ∀ i : Fin 4, (trig.relayConfig i).enabled = false ∨
          trig.timestamp + (trig.relayConfig i).delayMs +
            (trig.relayConfig i).onTimeMs ≤ now)) ∧
    ((calculateAndBroadcastRelayStates st now).settings.activeTrigger = none →
      (∀ i : Fin 4, (evalM st.settings now).states i = false) ∧
        (evalM st.settings now).triggerActive = false) ∧
    ((calculateAndBroadcastRelayStates st now).settings.activeTrigger = none →
      st.settings.testRelay.id = none →
      (∀ i : Fin 4, (calculateAndBroadcastRelayStates st now).settings.currentRelayStates i = false) ∧
        (calculateAndBroadcastRelayStates st now).settings.triggerActive = false) := by
  refine ⟨?_, ?_, ?_⟩
  · rw [evalStep_trigger]
    unfold evalM
    rw [htr]
    cases ha : st.settings.alarmEnabled with
    | false =>
      rw [mainComputation_false_some]
      simp
    | true =>
      rw [mainComputation_true_some]
      by_cases hall : ∀ j : Fin 4,
          relayFinished now trig.timestamp (trig.relayConfig j) = true
      · rw [if_pos hall]
        simp only [true_iff, true_and]
        intro i
        exact (relayFinished_iff now trig.timestamp (trig.relayConfig i)).mp (hall i)
      · rw [if_neg hall]
        simp only [Option.some_ne_none, false_iff, not_and]
        intro _ hfin
        exact hall fun j =>
          (relayFinished_iff now trig.timestamp (trig.relayConfig j)).mpr (hfin j)
  · intro h
    rw [evalStep_trigger] at h
    have := mainComputation_cleared st.settings.alarmEnabled
      st.settings.activeTrigger now h
    unfold evalM at *
    rw [this]
    exact ⟨fun _ => rfl, rfl⟩
  · intro h hto
    rw [evalStep_trigger] at h
    have hm := mainComputation_cleared st.settings.alarmEnabled
      st.settings.activeTrigger now h
    have ht : evalT st.settings now =
        ⟨(evalM st.settings now).states, (evalM st.settings now).triggerActive,
          st.settings.testRelay, false⟩ := by
      unfold evalT
      exact testComputation_id_none _ _ _ _ _ hto
    constructor
    · intro i
      rw [evalStep_states, ht]
      dsimp only
      unfold evalM
      rw [hm]
    · rw [evalStep_triggerActive, ht]
      dsimp only
      unfold evalM
      rw [hm]

/-- C2 counterexample: a reachable state (the alarm was disabled while a
trigger ran) whose trigger's relays are all long finished, yet the
evaluation does not clear it — the claim's clearing condition holds but the
trigger survives because the main block is gated on `alarmEnabled`. -/
theorem trigger_lifecycle_counterexample :
    exAlarmOff.settings.activeTrigger = some exTrig ∧
    (∀ i : Fin 4, (exTrig.relayConfig i).enabled = false ∨
      exTrig.timestamp + (exTrig.relayConfig i).delayMs +
        (exTrig.relayConfig i).onTimeMs ≤ (99999 : Int)) ∧
    (calculateAndBroadcastRelayStates exAlarmOff 99999).settings.activeTrigger = some exTrig := by
  refine ⟨rfl, by decide, ?_⟩
  rw [evalStep_trigger]
  unfold evalM
  rfl

/-- Witness for C2 at the running sample state, evaluated after everything
finished. -/
theorem trigger_lifecycle_witness :
    exRunning.settings.activeTrigger = some exTrig ∧
    (((calculateAndBroadcastRelayStates exRunning 99999).settings.activeTrigger = none ↔
      (exRunning.settings.alarmEnabled = true ∧
        ∀ i : Fin 4, (exTrig.relayConfig i).enabled = false ∨
          exTrig.timestamp + (exTrig.relayConfig i).delayMs +
            (exTrig.relayConfig i).onTimeMs ≤ (99999 : Int))) ∧
    ((calculateAndBroadcastRelayStates exRunning 99999).settings.activeTrigger = none →
      (∀ i : Fin 4, (evalM exRunning.settings 99999).states i = false) ∧
        (evalM exRunning.settings 99999).triggerActive = false) ∧
    ((calculateAndBroadcastRelayStates exRunning 99999).settings.activeTrigger = none →
      exRunning.settings.testRelay.id = none →
      (∀ i : Fin 4, (calculateAndBroadcastRelayStates exRunning 99999).settings.currentRelayStates i = false) ∧
        (calculateAndBroadcastRelayStates exRunning 99999).settings.triggerActive = false)) :=
  ⟨rfl, trigger_lifecycle exRunning 99999 exTrig rfl⟩

/-! ## Idempotence of the evaluation -/

/-- Settings objects with equal fields are equal. -/
theorem AlarmSettings.eq_of_fields (a b : AlarmSettings)
    (h1 : a.alarmEnabled = b.alarmEnabled) (h2 : a.relays = b.relays)
    (h3 : a.activeTrigger = b.activeTrigger) (h4 : a.testRelay = b.testRelay)
    (h5 : a.currentRelayStates = b.currentRelayStates)
    (h6 : a.triggerActive = b.triggerActive) : a = b := by
  cases a
  cases b
  dsimp only at h1 h2 h3 h4 h5 h6
  subst h1 h2 h3 h4 h5 h6
  rfl

/-- System states with equal components are equal. -/
theorem SystemState.eq_of_parts (a b : SystemState)
    (h1 : a.settings = b.settings) (h2 : a.timer = b.timer) : a = b := by
  cases a
  cases b
  dsimp only at h1 h2
  subst h1 h2
  rfl

/-- Re-running the main block on its own output trigger reproduces it. -/
theorem mainComputation_idem (a : Bool) (tr : Option ActiveTrigger) (now : Int) :
    mainComputation a (mainComputation a tr now).trigger now =
      mainComputation a tr now := by
  match tr, a with
  | none, a =>
    rw [mainComputation_none]
    dsimp only
    exact mainComputation_none a now
  | some trig, false =>
    rw [mainComputation_false_some]
    dsimp only
    exact mainComputation_false_some trig now
  | some trig, true =>
    rw [mainComputation_true_some]
    by_cases hall : ∀ j : Fin 4,
        relayFinished now trig.timestamp (trig.relayConfig j) = true
    · rw [if_pos hall]
      dsimp only
      exact mainComputation_none true now
    · rw [if_neg hall]
      dsimp only
      rw [mainComputation_true_some, if_neg hall]

/-- Re-evaluating at the same instant reproduces the main block's output. -/
theorem evalM_evalStep (st : SystemState) (now : Int) :
    evalM (calculateAndBroadcastRelayStates st now).state.settings now = evalM st.settings now := by
  show mainComputation (calculateAndBroadcastRelayStates st now).state.settings.alarmEnabled
      (calculateAndBroadcastRelayStates st now).state.settings.activeTrigger now = evalM st.settings now
  rw [EvalOut.state_settings, (evalStep_config_frame st now).1, evalStep_trigger]
  show mainComputation st.settings.alarmEnabled
      ((mainComputation st.settings.alarmEnabled st.settings.activeTrigger now).trigger)
      now = _
  rw [mainComputation_idem]
  rfl

/-- Re-running the test block on its own output override reproduces its
states, `newTriggerActive` and override (the persistence event excepted),
provided the states fed to it are all-off whenever no trigger remains —
which is how the main block produces them. -/
theorem testComputation_idem (s : Fin 4 → Bool) (ta : Bool)
    (tr : Option ActiveTrigger) (t : TestRelay) (now : Int)
    (hz : tr = none → s = fun _ => false) :
    (testComputation s ta tr (testComputation s ta tr t now).testRelay now).states
        = (testComputation s ta tr t now).states ∧
    (testComputation s ta tr (testComputation s ta tr t now).testRelay now).triggerActive
        = (testComputation s ta tr t now).triggerActive ∧
    (testComputation s ta tr (testComputation s ta tr t now).testRelay now).testRelay
        = (testComputation s ta tr t now).testRelay := by
  match hid : t.id with
  | none =>
    rw [testComputation_id_none s ta tr t now hid]
    dsimp only
    rw [testComputation_id_none s ta tr t now hid]
    exact ⟨rfl, rfl, rfl⟩
  | some tid =>
    by_cases hdur : 0 < t.onTimeMs
    · by_cases hfl : now - t.timestamp < t.onTimeMs
      · rw [testComputation_inflight s ta tr t now tid hid hdur hfl]
        dsimp only
        rw [testComputation_inflight s ta tr t now tid hid hdur hfl]
        exact ⟨rfl, rfl, rfl⟩
      · rw [testComputation_finish s ta tr t now tid hid hdur hfl]
        dsimp only
        rw [testComputation_id_none s ta tr TestRelay.cleared now rfl]
        refine ⟨?_, rfl, rfl⟩
        match htr : tr with
        | some trig => rfl
        | none =>
          have hs := hz rfl
          subst hs
          funext j
          rcases eq_or_ne j tid with h | h
          · subst h
            simp [Function.update]
          · simp [Function.update, h]
    · rw [testComputation_nodur s ta tr t now tid hid hdur]
      dsimp only
      rw [testComputation_nodur s ta tr t now tid hid hdur]
      exact ⟨rfl, rfl, rfl⟩

/-- Re-evaluating at the same instant reproduces the test block's output
fields. -/
theorem evalT_evalStep (st : SystemState) (now : Int) :
    (evalT (calculateAndBroadcastRelayStates st now).state.settings now).states
        = (evalT st.settings now).states ∧
    (evalT (calculateAndBroadcastRelayStates st now).state.settings now).triggerActive
        = (evalT st.settings now).triggerActive ∧
    (evalT (calculateAndBroadcastRelayStates st now).state.settings now).testRelay
        = (evalT st.settings now).testRelay := by
  have hM := evalM_evalStep st now
  have hTR : (calculateAndBroadcastRelayStates st now).state.settings.testRelay =
      (testComputation (evalM st.settings now).states
        (evalM st.settings now).triggerActive
        (evalM st.settings now).trigger st.settings.testRelay now).testRelay := by
    rw [EvalOut.state_settings, evalStep_testRelay]
    rfl
  unfold evalT
  rw [hM, hTR]
  exact testComputation_idem _ _ _ _ now
    (mainComputation_trigger_none_states st.settings.alarmEnabled
      st.settings.activeTrigger now)

/-- Interval management is a no-op when the timer already reflects the
work. -/
theorem manageInterval_noop (w : Bool) (tm : TimerSys) (h : tm.id = w) :
    manageInterval w tm = tm := by
  subst h
  unfold manageInterval
  cases hid : tm.id <;> simp [hid]

/-- Re-running interval management with the same work is a no-op. -/
theorem manageInterval_idem (w : Bool) (tm : TimerSys) :
    manageInterval w (manageInterval w tm) = manageInterval w tm :=
  manageInterval_noop w (manageInterval w tm) (manageInterval_id w tm)

/-- C3 helper: one evaluation is idempotent on the system state — a second
evaluation at the same instant changes nothing. -/
theorem evalStep_idem (st : SystemState) (now : Int) :
    (calculateAndBroadcastRelayStates (calculateAndBroadcastRelayStates st now).state now).state = (calculateAndBroadcastRelayStates st now).state := by
  obtain ⟨hTs, hTta, hTtr⟩ := evalT_evalStep st now
  have hM := evalM_evalStep st now
  apply SystemState.eq_of_parts
  · apply AlarmSettings.eq_of_fields
    · rw [EvalOut.state_settings,
        (evalStep_config_frame (calculateAndBroadcastRelayStates st now).state now).1, EvalOut.state_settings]
    · rw [EvalOut.state_settings,
        (evalStep_config_frame (calculateAndBroadcastRelayStates st now).state now).2, EvalOut.state_settings]
    · rw [EvalOut.state_settings, evalStep_trigger, hM, EvalOut.state_settings,
        evalStep_trigger]
    · rw [EvalOut.state_settings, evalStep_testRelay, hTtr, EvalOut.state_settings,
        evalStep_testRelay]
    · rw [EvalOut.state_settings, evalStep_states, hTs, EvalOut.state_settings,
        evalStep_states]
    · rw [EvalOut.state_settings, evalStep_triggerActive, hTta, EvalOut.state_settings,
        evalStep_triggerActive]
  · rw [EvalOut.state_timer, evalStep_timer, hM, hTtr, EvalOut.state_timer,
      evalStep_timer, manageInterval_idem]

/-- A still-pending override after the test block is an in-flight one. -/
theorem evalT_pending_inFlight (a : AlarmSettings) (now : Int)
    (h1 : (evalT a now).testRelay.id ≠ none)
    (h2 : 0 < (evalT a now).testRelay.onTimeMs) :
    (evalT a now).testRelay.inFlight now := by
  unfold evalT at h1 h2 ⊢
  match hid : a.testRelay.id with
  | none =>
    rw [testComputation_id_none _ _ _ _ _ hid] at h1
    exact absurd hid h1
  | some tid =>
    by_cases hdur : 0 < a.testRelay.onTimeMs
    · by_cases hfl : now - a.testRelay.timestamp < a.testRelay.onTimeMs
      · rw [testComputation_inflight _ _ _ _ _ tid hid hdur hfl]
        exact ⟨by simp [hid], hdur, hfl⟩
      · rw [testComputation_finish _ _ _ _ _ tid hid hdur hfl] at h1
        exact absurd rfl h1
    · rw [testComputation_nodur _ _ _ _ _ tid hid hdur] at h2
      exact absurd h2 hdur

/-- The test-finish persistence happens exactly when an override with
positive duration has run out. -/
theorem testComputation_saved_iff (s : Fin 4 → Bool) (ta : Bool)
    (tr : Option ActiveTrigger) (t : TestRelay) (now : Int) :
    (testComputation s ta tr t now).savedTestFinish = true ↔
      (t.id ≠ none ∧ 0 < t.onTimeMs ∧ t.onTimeMs ≤ now - t.timestamp) := by
  match hid : t.id with
  | none =>
    rw [testComputation_id_none s ta tr t now hid]
    simp [hid]
  | some tid =>
    by_cases hdur : 0 < t.onTimeMs
    · by_cases hfl : now - t.timestamp < t.onTimeMs
      · rw [testComputation_inflight s ta tr t now tid hid hdur hfl]
        simp only [Bool.false_eq_true, false_iff, not_and]
        intro _ _
        omega
      · rw [testComputation_finish s ta tr t now tid hid hdur hfl]
        simp only [true_iff]
        exact ⟨by simp, hdur, by omega⟩
    · rw [testComputation_nodur s ta tr t now tid hid hdur]
      simp only [Bool.false_eq_true, false_iff, not_and]
      intro _ h
      exact absurd h hdur

/-- The persistence event flag of one evaluation. -/
theorem evalStep_savedTestFinish (st : SystemState) (now : Int) :
    (calculateAndBroadcastRelayStates st now).savedTestFinish = (evalT st.settings now).savedTestFinish := by
  unfold calculateAndBroadcastRelayStates
  dsimp only
  split <;> rfl

/-- C3 (amended).  Change-detecting gate and idempotence: re-evaluating with
no time advance and no state mutation yields an identical system state, and
triggers no additional broadcast unless a TestOverride is still in flight
(an in-flight override forces a broadcast on every evaluation); in general a
broadcast occurs iff the computed `(RelayState, triggerActive)` pair differs
from the stored snapshot or an override is still pending after the test
block, and the test-finish persistence happens exactly when an override with
positive duration has run out. -/
theorem broadcast_gate (st : SystemState) (now : Int) :
    ((calculateAndBroadcastRelayStates (calculateAndBroadcastRelayStates st now).state now).state = (calculateAndBroadcastRelayStates st now).state) ∧
    (¬ (calculateAndBroadcastRelayStates st now).settings.testRelay.inFlight now →
      (calculateAndBroadcastRelayStates (calculateAndBroadcastRelayStates st now).state now).broadcasted = false) ∧
    ((calculateAndBroadcastRelayStates st now).broadcasted = true ↔
      ((evalT st.settings now).states ≠ st.settings.currentRelayStates ∨
       (evalT st.settings now).triggerActive ≠ st.settings.triggerActive ∨
       ((evalT st.settings now).testRelay.id ≠ none ∧
         0 < (evalT st.settings now).testRelay.onTimeMs))) ∧
    ((calculateAndBroadcastRelayStates st now).savedTestFinish = true ↔
      (st.settings.testRelay.id ≠ none ∧ 0 < st.settings.testRelay.onTimeMs ∧
        st.settings.testRelay.onTimeMs ≤ now - st.settings.testRelay.timestamp)) := by
  obtain ⟨hTs, hTta, hTtr⟩ := evalT_evalStep st now
  refine ⟨evalStep_idem st now, ?_, evalStep_broadcasted st now, ?_⟩
  · intro hni
    cases hb : (calculateAndBroadcastRelayStates (calculateAndBroadcastRelayStates st now).state now).broadcasted with
    | false => rfl
    | true =>
      exfalso
      rcases (evalStep_broadcasted (calculateAndBroadcastRelayStates st now).state now).mp hb with h | h | h
      · apply h
        rw [hTs, EvalOut.state_settings, evalStep_states]
      · apply h
        rw [hTta, EvalOut.state_settings, evalStep_triggerActive]
      · apply hni
        have hfl : ((evalT (calculateAndBroadcastRelayStates st now).state.settings now).testRelay).inFlight now :=
          evalT_pending_inFlight _ now h.1 h.2
        rw [hTtr] at hfl
        have heq : (evalT st.settings now).testRelay = (calculateAndBroadcastRelayStates st now).settings.testRelay :=
          (evalStep_testRelay st now).symm
        rw [heq] at hfl
        exact hfl
  · rw [evalStep_savedTestFinish]
    exact testComputation_saved_iff _ _ _ _ now

/-- C3 counterexample: with the override of `exTesting` in flight (100 ms
elapsed of 500), re-evaluating at the same instant with no state mutation
broadcasts again — and persists nothing — although the snapshot is
unchanged; the claim's idempotence and its persist-iff both fail here. -/
theorem broadcast_gate_counterexample :
    (calculateAndBroadcastRelayStates (calculateAndBroadcastRelayStates exTesting 100).state 100).broadcasted = true ∧
    (calculateAndBroadcastRelayStates (calculateAndBroadcastRelayStates exTesting 100).state 100).savedTestFinish = false ∧
    (calculateAndBroadcastRelayStates (calculateAndBroadcastRelayStates exTesting 100).state 100).savedIdle = false ∧
    (calculateAndBroadcastRelayStates (calculateAndBroadcastRelayStates exTesting 100).state 100).state =
      (calculateAndBroadcastRelayStates exTesting 100).state := by
  refine ⟨?_, ?_, ?_, evalStep_idem exTesting 100⟩ <;> rfl

/-! ## Settings validation -/

/-- `typeof v === 'boolean'` holds exactly of boolean JSON values. -/
theorem JVal.isBool_iff (j : JVal) : j.isBool = true ↔ ∃ b, j = JVal.jbool b := by
  cases j <;> simp [JVal.isBool]

/-- The number-in-range check holds exactly of numbers in the range. -/
theorem JVal.isNumIn_iff (j : JVal) (lo hi : Int) :
    j.isNumIn lo hi = true ↔ ∃ v, j = JVal.jnum v ∧ lo ≤ v ∧ v ≤ hi := by
  cases j <;> simp [JVal.isNumIn, and_assoc]

/-- Per-relay validation passes exactly when all four field checks do. -/
theorem validateRelayReq_none_iff (id : String) (r : RelayReq) :
    validateRelayReq id r = none ↔
      (r.onTimeMs.isNumIn 100 600000 = true ∧ r.delayMs.isNumIn 0 600000 = true ∧
       r.pulseMs.isNumIn 0 5000 = true ∧ r.enabled.isBool = true) := by
  unfold validateRelayReq
  by_cases h1 : r.onTimeMs.isNumIn 100 600000 <;>
    by_cases h2 : r.delayMs.isNumIn 0 600000 <;>
      by_cases h3 : r.pulseMs.isNumIn 0 5000 <;>
        by_cases h4 : r.enabled.isBool <;>
          simp [h1, h2, h3, h4]

/-- The relay loop passes exactly when every entry passes. -/
theorem validateRelayList_none_iff (l : List (String × RelayReq)) :
    validateRelayList l = none ↔ ∀ p ∈ l, validateRelayReq p.1 p.2 = none := by
  induction l with
  | nil => simp [validateRelayList]
  | cons hd tl ih =>
    obtain ⟨id, r⟩ := hd
    unfold validateRelayList
    cases hv : validateRelayReq id r with
    | some e =>
      simp only [List.mem_cons, forall_eq_or_imp]
      constructor
      · intro h
        exact absurd h (by simp)
      · intro h
        rw [h.1] at hv
        exact absurd hv (by simp)
    | none =>
      simp [hv, ih]

/-- The whole request validation passes exactly when `alarmEnabled` is a
boolean, the relay object has four entries, and every entry is in bounds. -/
theorem validateSettingsReq_none_iff (req : SettingsReq) :
    validateSettingsReq req = none ↔
      (req.alarmEnabled.isBool = true ∧ req.relays.length = 4 ∧
        ∀ p ∈ req.relays, validateRelayReq p.1 p.2 = none) := by
  unfold validateSettingsReq
  by_cases h1 : req.alarmEnabled.isBool
  · by_cases h2 : req.relays.length = 4
    · simp [h1, h2, validateRelayList_none_iff]
    · simp [h1, h2]
  · simp [h1]

/-- The handler answers without error exactly when validation passed. -/
theorem updateConfig_error_iff (st : SystemState) (req : SettingsReq) (now : Int) :
    (updateConfig st req now).2 = none ↔ validateSettingsReq req = none := by
  unfold updateConfig
  cases hv : validateSettingsReq req with
  | some e => simp
  | none =>
    rcases h0 : reqRelayAt req 0 with _ | r1 <;>
      rcases h1 : reqRelayAt req 1 with _ | r2 <;>
        rcases h2 : reqRelayAt req 2 with _ | r3 <;>
          rcases h3 : reqRelayAt req 3 with _ | r4 <;>
            simp

/-- A rejected request leaves the whole system state untouched. -/
theorem updateConfig_error_frame (st : SystemState) (req : SettingsReq) (now : Int)
    (h : (updateConfig st req now).2 ≠ none) :
    (updateConfig st req now).1 = st := by
  have hv : validateSettingsReq req ≠ none := fun he =>
    h ((updateConfig_error_iff st req now).mpr he)
  unfold updateConfig
  cases hvv : validateSettingsReq req with
  | some e => rfl
  | none => exact absurd hvv hv

/-- An accepted canonical-keyed request replaces `alarmEnabled` and the live
relay configuration with the request's values. -/
theorem updateConfig_success (st : SystemState) (req : SettingsReq) (now : Int)
    (hkeys : req.relays.map Prod.fst = ["1", "2", "3", "4"])
    (hok : (updateConfig st req now).2 = none) :
    (updateConfig st req now).1.settings.alarmEnabled = req.alarmEnabled.asBool ∧
    ∀ (i : Fin 4) (r : RelayReq), reqRelayAt req i = some r →
      (updateConfig st req now).1.settings.relays i = r.toConfig := by
  have hv : validateSettingsReq req = none := (updateConfig_error_iff st req now).mp hok
  obtain ⟨rel, hrel⟩ : ∃ l, req.relays = l := ⟨req.relays, rfl⟩
  match req, rel, hrel with
  | ⟨ae, _⟩, [p1, p2, p3, p4], rfl =>
    obtain ⟨k1, r1⟩ := p1
    obtain ⟨k2, r2⟩ := p2
    obtain ⟨k3, r3⟩ := p3
    obtain ⟨k4, r4⟩ := p4
    simp only [List.map_cons, List.map_nil, List.cons.injEq, and_true] at hkeys
    obtain ⟨hk1, hk2, hk3, hk4⟩ := hkeys
    subst hk1 hk2 hk3 hk4
    have hr0 : reqRelayAt ⟨ae, [("1", r1), ("2", r2), ("3", r3), ("4", r4)]⟩ 0 =
        some r1 := rfl
    have hr1 : reqRelayAt ⟨ae, [("1", r1), ("2", r2), ("3", r3), ("4", r4)]⟩ 1 =
        some r2 := rfl
    have hr2 : reqRelayAt ⟨ae, [("1", r1), ("2", r2), ("3", r3), ("4", r4)]⟩ 2 =
        some r3 := rfl
    have hr3 : reqRelayAt ⟨ae, [("1", r1), ("2", r2), ("3", r3), ("4", r4)]⟩ 3 =
        some r4 := rfl
    unfold updateConfig
    rw [hv, hr0, hr1, hr2, hr3]
    dsimp only
    constructor
    · rw [EvalOut.state_settings, (evalStep_config_frame _ now).1]
    · intro i r hr
      rw [EvalOut.state_settings, (evalStep_config_frame _ now).2]
      obtain ⟨iv, hlt⟩ := i
      interval_cases iv
      · cases hr0.symm.trans hr
        rfl
      · cases hr1.symm.trans hr
        rfl
      · cases hr2.symm.trans hr
        rfl
      · cases hr3.symm.trans hr
        rfl
  | ⟨ae, _⟩, [], rfl => simp at hkeys
  | ⟨ae, _⟩, [p1], rfl => simp at hkeys
  | ⟨ae, _⟩, [p1, p2], rfl => simp at hkeys
  | ⟨ae, _⟩, [p1, p2, p3], rfl => simp at hkeys
  | ⟨ae, _⟩, p1 :: p2 :: p3 :: p4 :: p5 :: rest, rfl => simp at hkeys

/-- C4 (amended).  UpdateConfig validation and atomicity: a request is
rejected — leaving the whole system state untouched — exactly when
`alarmEnabled` is not a boolean, the relay object does not have exactly four
entries, or some relay entry breaks the type/bounds checks (`onTimeMs` in
[100, 600000], `delayMs` in [0, 600000], `pulseMs` in [0, 5000], `enabled`
boolean); the relay ids themselves are never compared against the fixed set
{1,2,3,4}.  An accepted canonical-keyed request replaces the live
`alarmEnabled` and relay configuration. -/
theorem update_config_validation (st : SystemState) (req : SettingsReq) (now : Int)
    (hkeys : req.relays.map Prod.fst = ["1", "2", "3", "4"]) :
    ((updateConfig st req now).2 ≠ none ↔
      ((¬ ∃ b, req.alarmEnabled = JVal.jbool b) ∨
       req.relays.length ≠ 4 ∨
       (∃ p ∈ req.relays,
         (¬ ∃ v, p.2.onTimeMs = JVal.jnum v ∧ 100 ≤ v ∧ v ≤ 600000) ∨
         (¬ ∃ v, p.2.delayMs = JVal.jnum v ∧ 0 ≤ v ∧ v ≤ 600000) ∨
         (¬ ∃ v, p.2.pulseMs = JVal.jnum v ∧ 0 ≤ v ∧ v ≤ 5000) ∨
         (¬ ∃ b, p.2.enabled = JVal.jbool b)))) ∧
    ((updateConfig st req now).2 ≠ none → (updateConfig st req now).1 = st) ∧
    ((updateConfig st req now).2 = none →
      (updateConfig st req now).1.settings.alarmEnabled = req.alarmEnabled.asBool ∧
      ∀ (i : Fin 4) (r : RelayReq), reqRelayAt req i = some r →
        (updateConfig st req now).1.settings.relays i = r.toConfig) := by
  refine ⟨?_, updateConfig_error_frame st req now, updateConfig_success st req now hkeys⟩
  rw [Ne, updateConfig_error_iff, validateSettingsReq_none_iff]
  rw [not_and_or, not_and_or]
  constructor
  · rintro (h | h | h)
    · exact Or.inl fun hb => h ((JVal.isBool_iff req.alarmEnabled).mpr hb)
    · exact Or.inr (Or.inl h)
    · refine Or.inr (Or.inr ?_)
      push_neg at h
      obtain ⟨p, hp, hbad⟩ := h
      refine ⟨p, hp, ?_⟩
      rw [ne_eq, validateRelayReq_none_iff, not_and_or, not_and_or, not_and_or] at hbad
      rcases hbad with hb | hb | hb | hb
      · exact Or.inl fun hv => hb ((JVal.isNumIn_iff _ _ _).mpr hv)
      · exact Or.inr (Or.inl fun hv => hb ((JVal.isNumIn_iff _ _ _).mpr hv))
      · exact Or.inr (Or.inr (Or.inl fun hv => hb ((JVal.isNumIn_iff _ _ _).mpr hv)))
      · exact Or.inr (Or.inr (Or.inr fun hv => hb ((JVal.isBool_iff _).mpr hv)))
  · rintro (h | h | h)
    · exact Or.inl fun hb => h ((JVal.isBool_iff req.alarmEnabled).mp hb)
    · exact Or.inr (Or.inl h)
    · refine Or.inr (Or.inr ?_)
      push_neg
      obtain ⟨p, hp, hbad⟩ := h
      refine ⟨p, hp, ?_⟩
      rw [ne_eq, validateRelayReq_none_iff, not_and_or, not_and_or, not_and_or]
      rcases hbad with hb | hb | hb | hb
      · exact Or.inl fun hv => hb ((JVal.isNumIn_iff _ _ _).mp hv)
      · exact Or.inr (Or.inl fun hv => hb ((JVal.isNumIn_iff _ _ _).mp hv))
      · exact Or.inr (Or.inr (Or.inl fun hv => hb ((JVal.isNumIn_iff _ _ _).mp hv)))
      · exact Or.inr (Or.inr (Or.inr fun hv => hb ((JVal.isBool_iff _).mp hv)))

/-- A within-bounds relay entry under non-canonical ids 5–8. -/
def exBadKeysReq : SettingsReq :=
  ⟨JVal.jbool true,
   [("5", exGoodRelayReq), ("6", exGoodRelayReq),
    ("7", exGoodRelayReq), ("8", exGoodRelayReq)]⟩

/-- C4 counterexample: a request whose relay object carries ids {5,6,7,8} —
not the fixed set {1,2,3,4} — passes validation and is answered without
error, because the handler checks only the entry count and per-relay bounds,
never the ids. -/
theorem update_config_counterexample :
    validateSettingsReq exBadKeysReq = none ∧
    exBadKeysReq.relays.map Prod.fst ≠ ["1", "2", "3", "4"] ∧
    (updateConfig exIdle exBadKeysReq 0).2 = none := by
  refine ⟨rfl, by decide, rfl⟩

/-- Witness for C4 at the canonical within-bounds request. -/
theorem update_config_validation_witness :
    exGoodReq.relays.map Prod.fst = ["1", "2", "3", "4"] ∧
    (((updateConfig exIdle exGoodReq 0).2 ≠ none ↔
      ((¬ ∃ b, exGoodReq.alarmEnabled = JVal.jbool b) ∨
       exGoodReq.relays.length ≠ 4 ∨
       (∃ p ∈ exGoodReq.relays,
         (¬ ∃ v, p.2.onTimeMs = JVal.jnum v ∧ 100 ≤ v ∧ v ≤ 600000) ∨
         (¬ ∃ v, p.2.delayMs = JVal.jnum v ∧ 0 ≤ v ∧ v ≤ 600000) ∨
         (¬ ∃ v, p.2.pulseMs = JVal.jnum v ∧ 0 ≤ v ∧ v ≤ 5000) ∨
         (¬ ∃ b, p.2.enabled = JVal.jbool b)))) ∧
    ((updateConfig exIdle exGoodReq 0).2 ≠ none →
      (updateConfig exIdle exGoodReq 0).1 = exIdle) ∧
    ((updateConfig exIdle exGoodReq 0).2 = none →
      (updateConfig exIdle exGoodReq 0).1.settings.alarmEnabled =
        exGoodReq.alarmEnabled.asBool ∧
      ∀ (i : Fin 4) (r : RelayReq), reqRelayAt exGoodReq i = some r →
        (updateConfig exIdle exGoodReq 0).1.settings.relays i = r.toConfig)) :=
  ⟨rfl, update_config_validation exIdle exGoodReq 0 rfl⟩

end ShopAlarm
